import Mathlib

/-!
Verification of `scrape_eventbrite.py`: a shallow embedding in Lean 4 of the
data model and operations of the scraper (token gate, paginated region
search, normalizer, window filter, deduplicator, report writer), with
theorems settling the specification claims.

Conventions of the embedding:
* Python `None` / absent dict keys become `Option`.
* Naive timestamps are modelled as `Int` seconds; `datetime.fromisoformat`
  is an external library call and is modelled as a parameter
  `parse : String → Option Int` (returning `none` when parsing fails).
  `timedelta(days=d)` is `d * 86400` seconds.
* HTTP traffic is modelled by an oracle (`World`) giving the response of the
  token-validation request and, per region, the sequence of responses the
  paginated search would receive.
* `sys.exit` / file writes become an explicit `RunOutput` record holding the
  structured payload, the rendered markdown text, the exit code and the
  number of HTTP requests issued.
-/

/-- `e["name"]` substructure of a raw Eventbrite event: `{"text": ...}`. -/
structure RawName where
  text : Option String
deriving DecidableEq, Repr

/-- `e["start"]` / `e["end"]` substructure: `{"local": ...}`. -/
structure RawWhen where
  «local» : Option String
deriving DecidableEq, Repr

/-- `venue["address"]` substructure of a raw event. -/
structure RawAddress where
  city : Option String
  region : Option String
  localized_address_display : Option String
deriving DecidableEq, Repr

/-- `e["venue"]` substructure of a raw event. -/
structure RawVenue where
  name : Option String
  address : Option RawAddress
deriving DecidableEq, Repr

/-- A raw event as returned by the Eventbrite search API; every field of
interest is optional (`None` or missing key in Python). -/
structure RawEvent where
  id : Option String
  name : Option RawName
  url : Option String
  start : Option RawWhen
  «end» : Option RawWhen
  is_free : Option Bool
  status : Option String
  venue : Option RawVenue
deriving DecidableEq, Repr

/-- The flat record produced by `normalize_events` for one event. -/
structure NormalizedEvent where
  id : Option String
  name : Option String
  url : Option String
  start : Option String
  «end» : Option String
  is_free : Option Bool
  status : Option String
  city : Option String
  state : Option String
  venue_name : Option String
  address : Option String
deriving DecidableEq, Repr

/-- Normalization of a single raw event, following the body of the loop in
`normalize_events`: `venue = e.get("venue") or {}`,
`address = venue.get("address") or {}`, and each flat field read with
`.get`, absent values becoming `None`. -/
def normalize_event (e : RawEvent) : NormalizedEvent :=
  let venue := e.venue.getD ⟨none, none⟩
  let address := venue.address.getD ⟨none, none, none⟩
  { id := e.id
    name := (e.name.getD ⟨none⟩).text
    url := e.url
    start := (e.start.getD ⟨none⟩).«local»
    «end» := (e.«end».getD ⟨none⟩).«local»
    is_free := e.is_free
    status := e.status
    city := address.city
    state := address.region
    venue_name := venue.name
    address := address.localized_address_display }

/-- `normalize_events`: map `normalize_event` over the input, in order. -/
def normalize_events (events : List RawEvent) : List NormalizedEvent :=
  events.map normalize_event

/-- The body of the loop in `filter_upcoming` as a Boolean predicate:
`e.get("start")` must be truthy (present and non-empty), must parse, and the
parsed time must satisfy `now <= dt <= cutoff` where
`cutoff = now + timedelta(days=days)`. -/
def keeps_event (parse : String → Option Int) (now days : Int)
    (e : NormalizedEvent) : Bool :=
  match e.start with
  | none => false
  | some s =>
    if s = "" then false
    else match parse s with
      | none => false
      | some dt => decide (now ≤ dt ∧ dt ≤ now + days * 86400)

/-- `filter_upcoming`: keep, in order, the events whose start time falls in
the window `[now, now + days]`. -/
def filter_upcoming (parse : String → Option Int) (now days : Int)
    (events : List NormalizedEvent) : List NormalizedEvent :=
  events.filter (keeps_event parse now days)

/-- The deduplication key `(e.get("name"), e.get("start"))` used in
`fetch_events`. -/
def eventKey (e : NormalizedEvent) : Option String × Option String :=
  (e.name, e.start)

/-- The deduplication loop of `fetch_events`: `seen` is the set of keys
already emitted (modelled as a list), first occurrence of a key wins. -/
def dedup_go (seen : List (Option String × Option String)) :
    List NormalizedEvent → List NormalizedEvent
  | [] => []
  | e :: rest =>
    if eventKey e ∈ seen then dedup_go seen rest
    else e :: dedup_go (eventKey e :: seen) rest

/-- Deduplication by `(name, start)` as performed in `fetch_events`. -/
def dedup (events : List NormalizedEvent) : List NormalizedEvent :=
  dedup_go [] events

/-- Outcome of one HTTP GET: a transport-level failure
(`requests.RequestException`) or a response with a status code and body. -/
inductive HttpResult where
  | transportError (msg : String)
  | response (status : Nat) (body : String)
deriving DecidableEq, Repr

/-- `validate_token`: returns normally on HTTP 200, otherwise raises a
`RuntimeError` whose message classifies the failure; modelled as `Except`
with the error string. The checks follow the source order: transport error,
200, 401/403, 429, other. -/
def validate_token (r : HttpResult) : Except String Unit :=
  match r with
  | .transportError msg => .error ("token_validation_request_error:" ++ msg)
  | .response status body =>
    if status = 200 then .ok ()
    else if status = 401 ∨ status = 403 then
      .error ("token_invalid_or_forbidden:http_" ++ toString status ++ ":"
        ++ body.take 256)
    else if status = 429 then
      .error ("rate_limited_on_token_validation:http_429:" ++ body.take 256)
    else
      .error ("token_validation_http_error:http_" ++ toString status ++ ":"
        ++ body.take 256)

/-- The parsed JSON body of one search page: `data.get("events")` (possibly
absent/null, hence `Option`) and the truthiness of
`data.get("pagination", {}).get("has_more_items")`. -/
structure PageJson where
  events : Option (List RawEvent)
  has_more_items : Bool
deriving DecidableEq, Repr

/-- One search-page response: a transport error, or a status code with the
raw body text and (attempted only on status 200) the parsed JSON, `none`
meaning `resp.json()` raised `ValueError`. -/
inductive PageResult where
  | transportError (msg : String)
  | httpResponse (status : Nat) (body : String) (json : Option PageJson)
deriving DecidableEq, Repr

/-- Outcome of processing one response inside the `while` loop of
`search_region`: either a warning string is appended and the loop breaks,
or the page's events are kept with the `has_more_items` flag. -/
inductive StepOutcome where
  | fail (warning : String)
  | page (events : List RawEvent) (more : Bool)
deriving DecidableEq, Repr

/-- The response-classification cascade of the `search_region` loop body,
in source order: transport error, 404, 401/403, 429, other non-200,
JSON decoding failure, then the normal case. -/
def step_page (region : String) : PageResult → StepOutcome
  | .transportError msg => .fail ("request_error:" ++ region ++ ":" ++ msg)
  | .httpResponse status body json =>
    if status = 404 then
      .fail ("404:" ++ region ++ ":" ++ body.take 256)
    else if status = 401 ∨ status = 403 then
      .fail ("auth_error_http_" ++ toString status ++ ":" ++ region ++ ":"
        ++ body.take 256)
    else if status = 429 then
      .fail ("rate_limited_http_429:" ++ region ++ ":" ++ body.take 256)
    else if status ≠ 200 then
      .fail ("http_" ++ toString status ++ ":" ++ region ++ ":"
        ++ body.take 256)
    else
      match json with
      | none =>
        .fail ("invalid_json_response:" ++ region ++ ":" ++ body.take 256)
      | some data => .page (data.events.getD []) data.has_more_items

/-- The observable state of `search_region` when its loop ends: accumulated
events and warnings, the page numbers requested (in order), and how many
times the inter-page `time.sleep` ran. -/
structure SearchState where
  events : List RawEvent
  warnings : List String
  requestedPages : List Nat
  sleeps : Nat
deriving DecidableEq, Repr

/-- The `while True` loop of `search_region`, driven by the oracle list of
responses `pages` (one entry per request issued). The empty-oracle case
returns the accumulator; under the theorems' hypotheses the loop always
ends on a response, never by exhausting the oracle. -/
def search_region_go (region : String) :
    List PageResult → Nat → List RawEvent → List String → List Nat → Nat →
    SearchState
  | [], _, acc, warns, reqs, sleeps => ⟨acc, warns, reqs, sleeps⟩
  | r :: rest, page, acc, warns, reqs, sleeps =>
    match step_page region r with
    | .fail w => ⟨acc, warns ++ [w], reqs ++ [page], sleeps⟩
    | .page evs more =>
      if more then
        search_region_go region rest (page + 1) (acc ++ evs) warns
          (reqs ++ [page]) (sleeps + 1)
      else ⟨acc ++ evs, warns, reqs ++ [page], sleeps⟩

/-- `search_region`: paginated search for one region, starting at page 1
with empty accumulators. -/
def search_region (region : String) (pages : List PageResult) : SearchState :=
  search_region_go region pages 1 [] [] [] 0

/-- The HTTP oracle for one run: the response of the `/users/me/`
token-validation request, and for each region the successive responses of
its `/events/search` requests. -/
structure World where
  validateResp : HttpResult
  regionPages : String → List PageResult

/-- The per-run configuration: the timestamp parser and current time used
by `filter_upcoming`, and the query / states / radius / lookahead values
wired through `fetch_events`. -/
structure Config where
  parse : String → Option Int
  now : Int
  query : String
  states : List String
  within : String
  days : Int

/-- The success payload built at the end of `fetch_events`. -/
structure Payload where
  generated : Bool
  source : String
  query : String
  regions : List String
  within : String
  count : Nat
  events : List NormalizedEvent
  warnings : List String
deriving DecidableEq, Repr

/-- The `for state in states` loop of `fetch_events`: run `search_region`
per region, concatenating events and warnings; also counts the HTTP
requests issued (one per page). -/
def run_regions (w : World) : List String → List RawEvent × List String × Nat
  | [] => ([], [], 0)
  | st :: rest =>
    let r := search_region st (w.regionPages st)
    let prev := run_regions w rest
    (r.events ++ prev.1, r.warnings ++ prev.2.1,
      r.requestedPages.length + prev.2.2)

/-- `fetch_events` with the token already in hand: validate the token (its
`RuntimeError` propagates as `.error`), search every region, normalize,
filter to the window, deduplicate, and build the payload. The second
component counts HTTP requests issued (1 for validation plus one per
search page). -/
def fetch_eventsR (cfg : Config) (w : World) : Except String Payload × Nat :=
  match validate_token w.validateResp with
  | .error e => (.error e, 1)
  | .ok _ =>
    let rr := run_regions w cfg.states
    let normalized := normalize_events rr.1
    let upcoming := filter_upcoming cfg.parse cfg.now cfg.days normalized
    let unique := dedup upcoming
    (.ok { generated := true
           source := "eventbrite"
           query := cfg.query
           regions := cfg.states
           within := cfg.within
           count := unique.length
           events := unique
           warnings := rr.2.1 }, 1 + rr.2.2)

/-- Python truthiness of an optional string: `None` and `""` are falsy. -/
def truthyStr : Option String → Option String
  | none => none
  | some s => if s = "" then none else some s

/-- The per-event block of `save_markdown`: heading with
`e.get("name") or "Unnamed Event"`, a Date line from the `T`/`Z`-stripped
start, a Location line joining the truthy parts of venue name, address,
city, state with `", "`, a Sign-up link line, then a blank line. -/
def render_event (e : NormalizedEvent) : List String :=
  let name := match truthyStr e.name with
    | none => "Unnamed Event"
    | some s => s
  let start := match truthyStr e.start with
    | none => ""
    | some s => s
  let start_fmt :=
    if start = "" then "" else (start.replace "T" " ").replace "Z" ""
  (["## " ++ name ++ "\n"]
    ++ (if start_fmt = "" then [] else ["- **Date:** " ++ start_fmt ++ "\n"])
    ++ (let loc_parts :=
          [e.venue_name, e.address, e.city, e.state].filterMap truthyStr
        if loc_parts = [] then []
        else ["- **Location:** " ++ String.intercalate ", " loc_parts ++ "\n"])
    ++ (match truthyStr e.url with
        | none => []
        | some u => ["- **Sign up:** [" ++ u ++ "](" ++ u ++ ")\n"])
    ++ [""])

/-- `save_markdown`: the text written to `events.md` — a heading line, then
either the "no events" sentence (parameterized by the lookahead days) or
one block per event, all joined with newlines. -/
def save_markdown (days : Int) (events : List NormalizedEvent) : String :=
  let lines :=
    ["# Upcoming Veteran Events in Montana and Wyoming\n"]
      ++ (if events.isEmpty then
            ["No events found within the next " ++ toString days ++ " days.\n"]
          else events.flatMap render_event)
  String.intercalate "\n" lines

/-- The contents of `events.json`: the success shape or the failure shape
`{"generated": false, "error": ...}`. -/
inductive ResultPayload where
  | success (p : Payload)
  | failure (error : String)
deriving DecidableEq, Repr

/-- Everything a run leaves behind: the structured file, the narrative
file, the process exit status, and the number of HTTP requests issued. -/
structure RunOutput where
  jsonFile : ResultPayload
  mdFile : String
  exitCode : Nat
  requests : Nat
deriving DecidableEq, Repr

/-- The whole program: `get_token` (the `if not token` falsiness check,
writing the misconfiguration payload and exiting 2 before any request),
then the `try`/`except` of `main` around `fetch_events` and the two file
writes, returning exit 0 on success and 1 on a caught exception. -/
def runMain (cfg : Config) (token : Option String) (w : World) : RunOutput :=
  match token with
  | none =>
    ⟨.failure "EVENTBRITE_TOKEN is not set", save_markdown cfg.days [], 2, 0⟩
  | some t =>
    if t = "" then
      ⟨.failure "EVENTBRITE_TOKEN is not set", save_markdown cfg.days [], 2, 0⟩
    else
      match fetch_eventsR cfg w with
      | (.ok p, n) => ⟨.success p, save_markdown cfg.days p.events, 0, n⟩
      | (.error e, n) => ⟨.failure e, save_markdown cfg.days [], 1, n⟩

/-! ## Specification-side definitions (refinement targets) -/

/-- Written from the spec's words for the Normalizer: each flat field is the
corresponding nested field reached with `Option.bind`, so that every absent
intermediate or leaf maps to `none`. -/
def flattenSpec (e : RawEvent) : NormalizedEvent :=
  { id := e.id
    name := e.name.bind RawName.text
    url := e.url
    start := e.start.bind RawWhen.«local»
    «end» := e.«end».bind RawWhen.«local»
    is_free := e.is_free
    status := e.status
    city := e.venue.bind fun v => v.address.bind fun a => a.city
    state := e.venue.bind fun v => v.address.bind fun a => a.region
    venue_name := e.venue.bind fun v => v.name
    address := e.venue.bind fun v => v.address.bind fun a =>
      a.localized_address_display }

/-- Written from the spec's words for the Window Filter: the start field is
present, its string parses, and the parsed time `t` satisfies
`now ≤ t ≤ cutoff` with `cutoff = now + days` (in seconds). -/
def spec_in_window (parse : String → Option Int) (now days : Int)
    (e : NormalizedEvent) : Bool :=
  match e.start with
  | none => false
  | some s =>
    match parse s with
    | none => false
    | some t => decide (now ≤ t ∧ t ≤ now + days * 86400)

/-! ## Helper lemmas -/

lemma normalize_event_eq_flattenSpec (e : RawEvent) :
    normalize_event e = flattenSpec e := by
  obtain ⟨i, n, u, s, en, f, st, v⟩ := e
  rcases v with _ | ⟨vn, va⟩
  · cases n <;> cases s <;> cases en <;> rfl
  · rcases va with _ | ⟨c, r, a⟩ <;> cases n <;> cases s <;> cases en <;> rfl

lemma dedup_go_sublist (xs : List NormalizedEvent)
    (seen : List (Option String × Option String)) :
    List.Sublist (dedup_go seen xs) xs := by
  induction xs generalizing seen with
  | nil => simp [dedup_go]
  | cons e rest ih =>
    simp only [dedup_go]
    split
    · exact List.Sublist.cons e (ih seen)
    · exact List.Sublist.cons₂ e (ih (eventKey e :: seen))

lemma dedup_go_filter (xs : List NormalizedEvent) :
    ∀ (seen : List (Option String × Option String))
      (k : Option String × Option String),
      (dedup_go seen xs).filter (fun e => decide (eventKey e = k)) =
        if k ∈ seen then []
        else (xs.filter (fun e => decide (eventKey e = k))).take 1 := by
  induction xs with
  | nil => intro seen k; by_cases hk : k ∈ seen <;> simp [dedup_go, hk]
  | cons e rest ih =>
    intro seen k
    by_cases he : eventKey e ∈ seen
    · rw [dedup_go, if_pos he, ih seen k]
      by_cases hk : k ∈ seen
      · simp [hk]
      · have hne : ¬ eventKey e = k := fun h => hk (h ▸ he)
        simp [hk, List.filter_cons, hne]
    · rw [dedup_go, if_neg he]
      by_cases hek : eventKey e = k
      · subst hek
        have hmem : eventKey e ∈ eventKey e :: seen := List.mem_cons_self _ _
        simp [List.filter_cons, ih (eventKey e :: seen), hmem, he]
      · have : (e :: dedup_go (eventKey e :: seen) rest).filter
            (fun x => decide (eventKey x = k)) =
            (dedup_go (eventKey e :: seen) rest).filter
              (fun x => decide (eventKey x = k)) := by
          simp [List.filter_cons, hek]
        rw [this, ih (eventKey e :: seen) k]
        have hk' : (k ∈ eventKey e :: seen) ↔ k ∈ seen := by
          constructor
          · intro h
            rcases List.mem_cons.mp h with h1 | h2
            · exact absurd h1.symm hek
            · exact h2
          · exact fun h => List.mem_cons_of_mem _ h
        by_cases hk : k ∈ seen
        · simp [hk, hk']
        · have : ¬ k ∈ eventKey e :: seen := fun h => hk (hk'.mp h)
          simp [hk, this, List.filter_cons, hek]

/-- The events contributed by one response: those of a successful page,
nothing for a failing one. -/
def pageEventsOf (region : String) (r : PageResult) : List RawEvent :=
  match step_page region r with
  | .fail _ => []
  | .page evs _ => evs

lemma search_region_go_fail (region : String) (r : PageResult)
    (rest : List PageResult) (page : Nat) (acc : List RawEvent)
    (warns : List String) (reqs : List Nat) (sleeps : Nat) (w : String)
    (h : step_page region r = .fail w) :
    search_region_go region (r :: rest) page acc warns reqs sleeps =
      ⟨acc, warns ++ [w], reqs ++ [page], sleeps⟩ := by
  simp [search_region_go, h]

lemma search_region_go_last (region : String) (r : PageResult)
    (rest : List PageResult) (page : Nat) (acc : List RawEvent)
    (warns : List String) (reqs : List Nat) (sleeps : Nat)
    (evs : List RawEvent) (h : step_page region r = .page evs false) :
    search_region_go region (r :: rest) page acc warns reqs sleeps =
      ⟨acc ++ evs, warns, reqs ++ [page], sleeps⟩ := by
  simp [search_region_go, h]

lemma search_region_go_append (region : String) (l : List PageResult) :
    ∀ good : List PageResult,
      (∀ r ∈ good, ∃ evs, step_page region r = .page evs true) →
      ∀ (page : Nat) (acc : List RawEvent) (warns : List String)
        (reqs : List Nat) (sleeps : Nat),
        search_region_go region (good ++ l) page acc warns reqs sleeps =
          search_region_go region l (page + good.length)
            (acc ++ good.flatMap (pageEventsOf region)) warns
            (reqs ++ List.range' page good.length) (sleeps + good.length) := by
  intro good
  induction good with
  | nil => intro _ page acc warns reqs sleeps; simp
  | cons g gs ih =>
    intro hgood page acc warns reqs sleeps
    obtain ⟨evs, hstep⟩ := hgood g (List.mem_cons_self g gs)
    have hpe : pageEventsOf region g = evs := by simp [pageEventsOf, hstep]
    have hgs : ∀ r ∈ gs, ∃ evs, step_page region r = .page evs true :=
      fun r hr => hgood r (List.mem_cons_of_mem g hr)
    have e1 : page + 1 + gs.length = page + (gs.length + 1) := by omega
    have e2 : acc ++ evs ++ gs.flatMap (pageEventsOf region) =
        acc ++ (pageEventsOf region g ++ gs.flatMap (pageEventsOf region)) := by
      rw [hpe, List.append_assoc]
    have e3 : reqs ++ [page] ++ List.range' (page + 1) gs.length =
        reqs ++ List.range' page (gs.length + 1) := by
      rw [List.range'_succ page gs.length 1, List.append_assoc]
      rfl
    have e4 : sleeps + 1 + gs.length = sleeps + (gs.length + 1) := by omega
    simp only [List.cons_append, search_region_go, hstep, if_true,
      List.append_eq]
    rw [ih hgs (page + 1) (acc ++ evs) warns (reqs ++ [page]) (sleeps + 1),
      e1, e2, e3, e4]
    simp [List.flatMap_cons]

/-! ## Claim theorems -/

/-- C3. Normalizer: `normalize_events` is the order-preserving, per-record
flattening of `name.text`, `start.local`, `end.local` and the venue/address
substructure, with every absent nested field mapped to `none`; being a total
function it never raises, and the output length equals the input length. -/
theorem normalizer_flattens_in_order (events : List RawEvent) :
    normalize_events events = events.map flattenSpec ∧
    (normalize_events events).length = events.length := by
  constructor
  · show events.map normalize_event = events.map flattenSpec
    rw [show normalize_event = flattenSpec from
      funext normalize_event_eq_flattenSpec]
  · simp [normalize_events]

/-- C1. Window Filter: provided the parser rejects the empty string (as
`datetime.fromisoformat` does), `filter_upcoming` returns exactly the
sublist (hence in input order) of events whose start is present, parses,
and lies in `[now, now + days]`, both ends included; events with an absent
or unparsable start are dropped, and the function is total (never
raises). -/
theorem filter_upcoming_window (parse : String → Option Int) (now days : Int)
    (events : List NormalizedEvent) (hp : parse "" = none) :
    filter_upcoming parse now days events =
      events.filter (spec_in_window parse now days) ∧
    List.Sublist (filter_upcoming parse now days events) events := by
  constructor
  · apply List.filter_congr
    intro e _
    cases h : e.start with
    | none => simp [keeps_event, spec_in_window, h]
    | some s =>
      by_cases hs : s = ""
      · subst hs; simp [keeps_event, spec_in_window, h, hp]
      · simp [keeps_event, spec_in_window, h, hs]
  · exact List.filter_sublist events

/-- Witness for C1 at a concrete parser and event list. -/
theorem filter_upcoming_window_witness :
    (fun s => if s = "2030-01-01T00:00:00" then some (5 : Int) else none)
        "" = none ∧
    filter_upcoming
        (fun s => if s = "2030-01-01T00:00:00" then some (5 : Int) else none)
        0 1
        [⟨none, some "A", none, some "2030-01-01T00:00:00", none, none, none,
          none, none, none, none⟩,
         ⟨none, some "B", none, none, none, none, none, none, none, none,
          none⟩,
         ⟨none, some "C", none, some "bad", none, none, none, none, none,
          none, none⟩] =
      List.filter
        (spec_in_window
          (fun s => if s = "2030-01-01T00:00:00" then some (5 : Int) else none)
          0 1)
        [⟨none, some "A", none, some "2030-01-01T00:00:00", none, none, none,
          none, none, none, none⟩,
         ⟨none, some "B", none, none, none, none, none, none, none, none,
          none⟩,
         ⟨none, some "C", none, some "bad", none, none, none, none, none,
          none, none⟩] := by
  refine ⟨by decide, ?_⟩
  exact (filter_upcoming_window _ 0 1 _ (by decide)).1

/-- C2. Deduplicator: `dedup` returns a sublist of its input (original
relative order, other fields untouched), and for every composite key `k`
— including `(none, none)` — the surviving events with key `k` are exactly
the first input event with that key; every later event sharing the key is
dropped regardless of its other fields. -/
theorem dedup_first_occurrence_wins (xs : List NormalizedEvent) :
    List.Sublist (dedup xs) xs ∧
    ∀ k : Option String × Option String,
      (dedup xs).filter (fun e => decide (eventKey e = k)) =
        (xs.filter (fun e => decide (eventKey e = k))).take 1 := by
  refine ⟨dedup_go_sublist xs [], fun k => ?_⟩
  rw [dedup, dedup_go_filter xs [] k]
  simp

/-- C5. Token validation: `validate_token` returns normally exactly on HTTP
200; 401/403 yield a `token_invalid_or_forbidden` error carrying the status
and at most 256 characters of the body; 429 yields
`rate_limited_on_token_validation`; any other non-200 status yields
`token_validation_http_error`; a transport failure yields
`token_validation_request_error` with the underlying error text. -/
theorem validate_token_classification (b msg : String) (s : Nat) :
    validate_token (.response 200 b) = .ok () ∧
    ((s = 401 ∨ s = 403) →
      validate_token (.response s b) =
        .error ("token_invalid_or_forbidden:http_" ++ toString s ++ ":"
          ++ b.take 256)) ∧
    validate_token (.response 429 b) =
      .error ("rate_limited_on_token_validation:http_429:" ++ b.take 256) ∧
    (s ≠ 200 → s ≠ 401 → s ≠ 403 → s ≠ 429 →
      validate_token (.response s b) =
        .error ("token_validation_http_error:http_" ++ toString s ++ ":"
          ++ b.take 256)) ∧
    validate_token (.transportError msg) =
      .error ("token_validation_request_error:" ++ msg) ∧
    (s ≠ 200 → validate_token (.response s b) ≠ .ok ()) ∧
    (b.take 256).length ≤ 256 := by
  refine ⟨rfl, ?_, rfl, ?_, rfl, ?_, ?_⟩
  · rintro (rfl | rfl) <;> rfl
  · intro h200 h401 h403 h429
    simp [validate_token, h200, h401, h403, h429]
  · intro h200 hok
    simp only [validate_token] at hok
    rw [if_neg h200] at hok
    split at hok
    · simp_all
    · split at hok <;> simp_all
  · rw [String.take_eq]
    exact List.length_take_le 256 b.data

/-- Witness for C5 at rejected (401) and unrecognized (500) statuses. -/
theorem validate_token_classification_witness :
    validate_token (.response 401 "resp") =
      .error ("token_invalid_or_forbidden:http_" ++ toString 401 ++ ":"
        ++ "resp".take 256) ∧
    validate_token (.response 500 "resp") =
      .error ("token_validation_http_error:http_" ++ toString 500 ++ ":"
        ++ "resp".take 256) :=
  ⟨(validate_token_classification "resp" "m" 401).2.1 (Or.inl rfl),
   (validate_token_classification "resp" "m" 500).2.2.2.1
     (by decide) (by decide) (by decide) (by decide)⟩

/-- C7. Pagination: starting from page 1, every successful page's events
are appended in order and followed (when more items are signalled) by one
inter-page sleep and a request for the next page number; the loop ends on
the first response with no further items — returning the concatenation of
all pages' events — or on the first failing response — returning the
concatenation of the earlier pages' events; the requested page numbers are
exactly `1, 2, ..., n+1`. -/
theorem search_region_pagination (region body : String) (data : PageJson)
    (good : List PageResult) (f : PageResult) (w : String)
    (hgood : ∀ r ∈ good, ∃ evs, step_page region r = .page evs true)
    (hlast : data.has_more_items = false)
    (hf : step_page region f = .fail w) :
    search_region region (good ++ [.httpResponse 200 body (some data)]) =
      ⟨good.flatMap (pageEventsOf region) ++ data.events.getD [], [],
        List.range' 1 (good.length + 1), good.length⟩ ∧
    search_region region (good ++ [f]) =
      ⟨good.flatMap (pageEventsOf region), [w],
        List.range' 1 (good.length + 1), good.length⟩ := by
  have hconcat : List.range' 1 good.length ++ [1 + good.length] =
      List.range' 1 (good.length + 1) := by
    simpa using (@List.range'_concat 1 1 good.length).symm
  constructor
  · have hstep : step_page region (.httpResponse 200 body (some data)) =
        .page (data.events.getD []) false := by
      simp [step_page, hlast]
    unfold search_region
    rw [search_region_go_append region _ good hgood 1 [] [] [] 0,
      search_region_go_last _ _ _ _ _ _ _ _ _ hstep]
    simp [hconcat]
  · unfold search_region
    rw [search_region_go_append region _ good hgood 1 [] [] [] 0,
      search_region_go_fail _ _ _ _ _ _ _ _ _ hf]
    simp [hconcat]


/-- Concrete raw event for witnesses: every optional field absent. -/
def wRaw : RawEvent := ⟨none, none, none, none, none, none, none, none⟩

/-- Concrete successful page with more items, for the C7 witness. -/
def wGood : List PageResult :=
  [.httpResponse 200 "pg1" (some ⟨some [wRaw], true⟩)]

/-- Concrete final-page JSON with no further items, for the C7 witness. -/
def wData : PageJson := ⟨some [], false⟩

/-- Witness for C7: one full page followed by a final page, and the same
full page followed by a transport failure. -/
theorem search_region_pagination_witness :
    search_region "Montana" (wGood ++ [.httpResponse 200 "pg2" (some wData)]) =
      ⟨wGood.flatMap (pageEventsOf "Montana") ++ wData.events.getD [], [],
        List.range' 1 (wGood.length + 1), wGood.length⟩ ∧
    search_region "Montana" (wGood ++ [.transportError "boom"]) =
      ⟨wGood.flatMap (pageEventsOf "Montana"),
        ["request_error:" ++ "Montana" ++ ":" ++ "boom"],
        List.range' 1 (wGood.length + 1), wGood.length⟩ :=
  search_region_pagination "Montana" "pg2" wData wGood (.transportError "boom")
    ("request_error:" ++ "Montana" ++ ":" ++ "boom")
    (by intro r hr
        simp only [wGood, List.mem_singleton] at hr
        subst hr
        exact ⟨[wRaw], rfl⟩)
    rfl rfl

lemma run_regions_events (wd : World) (states : List String) :
    (run_regions wd states).1 =
      states.flatMap fun st => (search_region st (wd.regionPages st)).events := by
  induction states with
  | nil => rfl
  | cons st rest ih => simp [run_regions, ih]

lemma run_regions_warnings (wd : World) (states : List String) :
    (run_regions wd states).2.1 =
      states.flatMap fun st => (search_region st (wd.regionPages st)).warnings := by
  induction states with
  | nil => rfl
  | cons st rest ih => simp [run_regions, ih]

lemma fetch_eventsR_ok (cfg : Config) (w : World)
    (hv : validate_token w.validateResp = .ok ()) :
    fetch_eventsR cfg w =
      (.ok { generated := true
             source := "eventbrite"
             query := cfg.query
             regions := cfg.states
             within := cfg.within
             count := (dedup (filter_upcoming cfg.parse cfg.now cfg.days
               (normalize_events (run_regions w cfg.states).1))).length
             events := dedup (filter_upcoming cfg.parse cfg.now cfg.days
               (normalize_events (run_regions w cfg.states).1))
             warnings := (run_regions w cfg.states).2.1 },
        1 + (run_regions w cfg.states).2.2) := by
  simp [fetch_eventsR, hv]

lemma save_markdown_nil (days : Int) :
    save_markdown days [] =
      "# Upcoming Veteran Events in Montana and Wyoming\n" ++ "\n"
        ++ ("No events found within the next " ++ toString days
          ++ " days.\n") := by
  simp [save_markdown, String.intercalate, String.intercalate.go]

/-- C4. Token gate: with the credential absent the program issues no
network request, writes the failure payload
`{"generated": false, "error": "EVENTBRITE_TOKEN is not set"}` to the
structured file, writes the narrative file containing only the heading and
the "no events" sentence, and exits with status 2. -/
theorem missing_token_exit2 (cfg : Config) (w : World) :
    runMain cfg none w =
      ⟨.failure "EVENTBRITE_TOKEN is not set",
        "# Upcoming Veteran Events in Montana and Wyoming\n" ++ "\n"
          ++ ("No events found within the next " ++ toString cfg.days
            ++ " days.\n"),
        2, 0⟩ := by
  simp [runMain, save_markdown_nil]

/-- C10. An empty-string credential is treated exactly like an absent one
(`if not token` tests falsiness, not presence): same files, exit 2, and no
network request. -/
theorem empty_token_like_missing (cfg : Config) (w : World) :
    runMain cfg (some "") w = runMain cfg none w ∧
    (runMain cfg (some "") w).exitCode = 2 ∧
    (runMain cfg (some "") w).requests = 0 := by
  refine ⟨?_, rfl, rfl⟩
  simp [runMain]

lemma runMain_ok (cfg : Config) (w : World) (t : String) (p : Payload)
    (ht : t ≠ "") (hp : (fetch_eventsR cfg w).1 = .ok p) :
    runMain cfg (some t) w =
      ⟨.success p, save_markdown cfg.days p.events, 0,
        (fetch_eventsR cfg w).2⟩ := by
  have h2 : fetch_eventsR cfg w = (Except.ok p, (fetch_eventsR cfg w).2) := by
    rw [← hp]
  simp only [runMain, if_neg ht]
  rw [h2]

lemma runMain_err (cfg : Config) (w : World) (t : String) (e : String)
    (ht : t ≠ "") (he : (fetch_eventsR cfg w).1 = .error e) :
    runMain cfg (some t) w =
      ⟨.failure e, save_markdown cfg.days [], 1, (fetch_eventsR cfg w).2⟩ := by
  have h2 : fetch_eventsR cfg w = (Except.error e, (fetch_eventsR cfg w).2) := by
    rw [← he]
  simp only [runMain, if_neg ht]
  rw [h2]

/-- C8. Top-level error handling: with a non-falsy credential, when
`fetch_events` succeeds the run writes the success payload and the
markdown of its events and exits 0; when any exception propagates out of
the pipeline the run writes `{generated: false, error: <message>}`, writes
the empty ("no events") markdown, and exits 1 — so both files are written
on every run. -/
theorem main_exit_codes (cfg : Config) (w : World) (t : String) (ht : t ≠ "") :
    (∀ p, (fetch_eventsR cfg w).1 = .ok p →
      runMain cfg (some t) w =
        ⟨.success p, save_markdown cfg.days p.events, 0,
          (fetch_eventsR cfg w).2⟩) ∧
    (∀ e, (fetch_eventsR cfg w).1 = .error e →
      runMain cfg (some t) w =
        ⟨.failure e, save_markdown cfg.days [], 1,
          (fetch_eventsR cfg w).2⟩) :=
  ⟨fun p hp => runMain_ok cfg w t p ht hp,
   fun e he => runMain_err cfg w t e ht he⟩

/-- Concrete configuration for run-level witnesses. -/
def wCfgA : Config := ⟨fun _ => none, 0, "q", ["Montana"], "500mi", 60⟩

/-- A world whose validation succeeds and whose single region has one
empty final page. -/
def wWorldOk : World :=
  ⟨.response 200 "me",
   fun _ => [.httpResponse 200 "pg" (some ⟨some [], false⟩)]⟩

/-- A world whose token-validation request fails at transport level. -/
def wWorldErr : World := ⟨.transportError "down", fun _ => []⟩

/-- The payload `wCfgA`/`wWorldOk` produce. -/
def wPayloadA : Payload :=
  ⟨true, "eventbrite", "q", ["Montana"], "500mi", 0, [], []⟩

/-- Witness for C8: a succeeding run and a failing run. -/
theorem main_exit_codes_witness :
    runMain wCfgA (some "tok") wWorldOk =
      ⟨.success wPayloadA, save_markdown wCfgA.days wPayloadA.events, 0,
        (fetch_eventsR wCfgA wWorldOk).2⟩ ∧
    runMain wCfgA (some "tok") wWorldErr =
      ⟨.failure ("token_validation_request_error:" ++ "down"),
        save_markdown wCfgA.days [], 1, (fetch_eventsR wCfgA wWorldErr).2⟩ :=
  ⟨(main_exit_codes wCfgA wWorldOk "tok" (by decide)).1 wPayloadA rfl,
   (main_exit_codes wCfgA wWorldErr "tok" (by decide)).2
     ("token_validation_request_error:" ++ "down") rfl⟩

lemma keeps_event_true {parse : String → Option Int} {now days : Int}
    {e : NormalizedEvent} (h : keeps_event parse now days e = true) :
    ∃ s t, e.start = some s ∧ s ≠ "" ∧ parse s = some t ∧
      now ≤ t ∧ t ≤ now + days * 86400 := by
  cases hst : e.start with
  | none => simp [keeps_event, hst] at h
  | some s =>
    simp only [keeps_event, hst] at h
    by_cases hs : s = ""
    · simp [hs] at h
    · simp only [if_neg hs] at h
      cases hps : parse s with
      | none => simp [hps] at h
      | some tv =>
        simp only [hps, decide_eq_true_eq] at h
        exact ⟨s, tv, rfl, hs, hps, h.1, h.2⟩

/-- C9. Pipeline invariant: every event of a success payload has a present,
non-empty, parseable start lying in the lookahead window (deduplication
runs after the window filter, so no event with an absent start — and in
particular no `(none, none)`-keyed record — can reach the persisted
output), and the `count` field equals the length of the events list. -/
theorem success_payload_invariant (cfg : Config) (w : World) (p : Payload)
    (hp : (fetch_eventsR cfg w).1 = .ok p) :
    p.count = p.events.length ∧
    ∀ e ∈ p.events, ∃ s t, e.start = some s ∧ s ≠ "" ∧
      cfg.parse s = some t ∧ cfg.now ≤ t ∧
      t ≤ cfg.now + cfg.days * 86400 := by
  cases hv : validate_token w.validateResp with
  | error err => simp [fetch_eventsR, hv] at hp
  | ok u =>
    cases u
    rw [fetch_eventsR_ok cfg w hv] at hp
    simp only [Except.ok.injEq] at hp
    subst hp
    constructor
    · rfl
    · intro e he
      have h1 : e ∈ filter_upcoming cfg.parse cfg.now cfg.days
          (normalize_events (run_regions w cfg.states).1) :=
        (dedup_go_sublist _ []).subset he
      exact keeps_event_true (List.mem_filter.mp h1).2

/-- Concrete configuration for the C9 witness: parser accepting only the
string `"D"` at time 5. -/
def wCfgB : Config :=
  ⟨fun s => if s = "D" then some 5 else none, 0, "q", ["Montana"], "500mi", 1⟩

/-- World delivering one event starting at `"D"`, for the C9 witness. -/
def wWorldB : World :=
  ⟨.response 200 "me",
   fun _ => [.httpResponse 200 "pg"
     (some ⟨some [⟨none, none, none, some ⟨some "D"⟩, none, none, none,
       none⟩], false⟩)]⟩

/-- The payload `wCfgB`/`wWorldB` produce. -/
def wPayloadB : Payload :=
  ⟨true, "eventbrite", "q", ["Montana"], "500mi", 1,
   [⟨none, none, none, some "D", none, none, none, none, none, none, none⟩],
   []⟩

/-- Witness for C9 on a run with one surviving event. -/
theorem success_payload_invariant_witness :
    (fetch_eventsR wCfgB wWorldB).1 = .ok wPayloadB ∧
    (wPayloadB.count = wPayloadB.events.length ∧
      ∀ e ∈ wPayloadB.events, ∃ s t, e.start = some s ∧ s ≠ "" ∧
        wCfgB.parse s = some t ∧ wCfgB.now ≤ t ∧
        t ≤ wCfgB.now + wCfgB.days * 86400) :=
  ⟨rfl, success_payload_invariant wCfgB wWorldB wPayloadB rfl⟩

/-- C6. Region search failure policy: after any run of successful pages, a
transport error, a non-200 status (404, 401/403, 429 or other) or a non-JSON
200 body appends exactly one warning tagged with the failure kind, the
region and a ≤256-character body snippet, stops requesting further pages of
that region, and keeps the events already accumulated; and end-to-end, a
429 on page 1 leaves that region with zero events, puts the
`rate_limited_http_429` warning with the region name into the success
payload, and the run still exits 0 when token validation succeeded. -/
theorem region_failure_nonfatal
    (region body msg t : String) (s : Nat) (j : Option PageJson)
    (good rest : List PageResult) (f : PageResult) (wstr : String)
    (cfg : Config) (wd : World)
    (hgood : ∀ r ∈ good, ∃ evs, step_page region r = .page evs true)
    (hf : step_page region f = .fail wstr)
    (hv : validate_token wd.validateResp = .ok ())
    (hreg : region ∈ cfg.states)
    (h429 : wd.regionPages region = .httpResponse 429 body none :: rest)
    (ht : t ≠ "") :
    search_region region (good ++ f :: rest) =
      ⟨good.flatMap (pageEventsOf region), [wstr],
        List.range' 1 (good.length + 1), good.length⟩ ∧
    step_page region (.transportError msg) =
      .fail ("request_error:" ++ region ++ ":" ++ msg) ∧
    step_page region (.httpResponse 404 body j) =
      .fail ("404:" ++ region ++ ":" ++ body.take 256) ∧
    ((s = 401 ∨ s = 403) → step_page region (.httpResponse s body j) =
      .fail ("auth_error_http_" ++ toString s ++ ":" ++ region ++ ":"
        ++ body.take 256)) ∧
    step_page region (.httpResponse 429 body j) =
      .fail ("rate_limited_http_429:" ++ region ++ ":" ++ body.take 256) ∧
    (s ≠ 404 → s ≠ 401 → s ≠ 403 → s ≠ 429 → s ≠ 200 →
      step_page region (.httpResponse s body j) =
        .fail ("http_" ++ toString s ++ ":" ++ region ++ ":"
          ++ body.take 256)) ∧
    step_page region (.httpResponse 200 body none) =
      .fail ("invalid_json_response:" ++ region ++ ":" ++ body.take 256) ∧
    (search_region region (wd.regionPages region)).events = [] ∧
    ∃ p, (fetch_eventsR cfg wd).1 = .ok p ∧
      ("rate_limited_http_429:" ++ region ++ ":" ++ body.take 256)
        ∈ p.warnings ∧
      (runMain cfg (some t) wd).exitCode = 0 ∧
      (runMain cfg (some t) wd).jsonFile = .success p := by
  have hconcat : List.range' 1 good.length ++ [1 + good.length] =
      List.range' 1 (good.length + 1) := by
    simpa using (@List.range'_concat 1 1 good.length).symm
  have hstep429 : step_page region (.httpResponse 429 body none) =
      .fail ("rate_limited_http_429:" ++ region ++ ":" ++ body.take 256) := rfl
  have hsr : search_region region (wd.regionPages region) =
      ⟨[], ["rate_limited_http_429:" ++ region ++ ":" ++ body.take 256],
        [1], 0⟩ := by
    rw [h429]
    exact search_region_go_fail region _ rest 1 [] [] [] 0 _ hstep429
  refine ⟨?_, rfl, rfl, ?_, rfl, ?_, rfl, ?_, ?_⟩
  · unfold search_region
    rw [search_region_go_append region (f :: rest) good hgood 1 [] [] [] 0,
      search_region_go_fail _ _ _ _ _ _ _ _ _ hf]
    simp [hconcat]
  · rintro (rfl | rfl) <;> rfl
  · intro h404 h401 h403 h429n h200
    simp [step_page, h404, h401, h403, h429n, h200]
  · rw [hsr]
  · have hfetch := fetch_eventsR_ok cfg wd hv
    have hrun := runMain_ok cfg wd t _ ht (by rw [hfetch])
    refine ⟨_, by rw [hfetch], ?_, by rw [hrun], by rw [hrun]⟩
    show ("rate_limited_http_429:" ++ region ++ ":" ++ body.take 256)
      ∈ (run_regions wd cfg.states).2.1
    rw [run_regions_warnings]
    exact List.mem_flatMap.mpr
      ⟨region, hreg, by rw [hsr]; exact List.mem_singleton.mpr rfl⟩

/-- Concrete configuration for the C6 witness. -/
def wCfgC : Config := ⟨fun _ => none, 0, "q", ["Montana"], "500mi", 60⟩

/-- World whose only region answers HTTP 429 on page 1, for the C6
witness. -/
def wWorldC : World :=
  ⟨.response 200 "me", fun _ => [.httpResponse 429 "slow" none]⟩

/-- Witness for C6: a 429 on page 1 of the region's search. -/
theorem region_failure_nonfatal_witness :
    (search_region "Montana" (wWorldC.regionPages "Montana")).events = [] ∧
    ∃ p, (fetch_eventsR wCfgC wWorldC).1 = .ok p ∧
      ("rate_limited_http_429:" ++ "Montana" ++ ":" ++ "slow".take 256)
        ∈ p.warnings ∧
      (runMain wCfgC (some "tok") wWorldC).exitCode = 0 ∧
      (runMain wCfgC (some "tok") wWorldC).jsonFile = .success p := by
  have h := region_failure_nonfatal "Montana" "slow" "boom" "tok" 403 none
    [] [] (.httpResponse 429 "slow" none)
    ("rate_limited_http_429:" ++ "Montana" ++ ":" ++ "slow".take 256)
    wCfgC wWorldC
    (by intro r hr; simp at hr)
    rfl rfl (by decide) rfl (by decide)
  exact ⟨h.2.2.2.2.2.2.2.1, h.2.2.2.2.2.2.2.2⟩
